import Mathlib

/-!
# OpenPilot: `jmath/pca.hpp` and the uploader's `runningdevicewidget.cpp`

A shallow embedding of

* the class `jafar::jmath::PCAtools` of `include/jmath/pca.hpp` (state, constructors and
  the three read accessors, which are the only members with a body in the header), and
* `runningDeviceWidget::populate` of
  `ground/openpilotgcs/src/plugins/uploader/runningdevicewidget.cpp`.

The bodies of `batchPCA`, `incrementPCA`, `project`, `reconstruct` and of the key/value
persistence hooks are not part of the header; the section `SubspaceModel` models them from
the written specification and says so on every definition.

The scalar type (`double` in the source) is a type parameter `S`. The definitions use its
arithmetic and its comparisons and assume no law of them, so they can be evaluated on any
scalar type that has the operations; a statement that needs a law of the scalars says so
in a hypothesis.
-/

namespace Jafar

/-! ## Dense vectors and matrices (`jblas::vec`, `jblas::mat`) -/

/-- Dense vector `jblas::vec` over the scalar type `S`. -/
abbrev Vec (S : Type) := List S

/-- Dense matrix `jblas::mat`, stored as its list of columns together with the row count
(a matrix with no column still has a row dimension). -/
structure Mat (S : Type) where
  rows : Nat
  colvecs : List (Vec S)
deriving DecidableEq, Repr

namespace Mat

/-- Number of columns (`size2`). -/
def cols {S : Type} (A : Mat S) : Nat := A.colvecs.length

/-- The default-constructed matrix: no rows, no columns. -/
def empty {S : Type} : Mat S := ⟨0, []⟩

end Mat

/-! ## `PCAtools` as declared in `pca.hpp` -/

/-- Exceptions raised by the jafar debug macros. -/
inductive JafarException where
  | precondition (message : String)
  | runTime (message : String)
deriving DecidableEq, Repr

/-- Modelled from the spec: the macro `JFR_PRECOND` of `kernel/jafarDebug.hpp`, which is not
among the sources. Read accessors "require" the fitted flag, and an operation before the
first fit fails: the macro raises a precondition failure carrying the message when the
predicate is false and does nothing otherwise. -/
def JFR_PRECOND (predicate : Bool) (message : String) : Except JafarException Unit :=
  if predicate then .ok () else .error (.precondition message)

/-- Modelled from the spec: the macro `JFR_RUN_TIME` of `kernel/jafarDebug.hpp`, which is not
among the sources. Failures are reported to the caller at the point of the offending call
(section 7); as its name says, the macro raises a run-time error carrying the message. -/
def JFR_RUN_TIME {α : Type} (message : String) : Except JafarException α :=
  .error (.runTime message)

/-- The enumeration `PCAtools::PCA_Method`. -/
inductive PCA_Method where
  | batch
  | EM
deriving DecidableEq, Repr

/-- Private state of `PCAtools` (pca.hpp, lines 109 to 113). -/
structure PCAtools (S : Type) where
  pca_performed : Bool
  eigenvectors : Mat S
  coefficients : Mat S
  mean : Vec S
  eigenvalues : Vec S
deriving DecidableEq, Repr

namespace PCAtools

/-- Default constructor `PCAtools() : pca_performed(false)`: the flag is cleared and the
matrices and vectors are default-constructed (empty). -/
def new {S : Type} : PCAtools S :=
  { pca_performed := false
    eigenvectors := Mat.empty
    coefficients := Mat.empty
    mean := []
    eigenvalues := [] }

/-- State of the object when the body of the two-argument constructor starts: that
constructor has no initialiser list, so the matrices and vectors are empty and
`pca_performed` holds an indeterminate value, passed in as `flag`. -/
def uninitialised {S : Type} (flag : Bool) : PCAtools S :=
  { pca_performed := flag
    eigenvectors := Mat.empty
    coefficients := Mat.empty
    mean := []
    eigenvalues := [] }

/-- Constructor with direct computation, `PCAtools(const jblas::mat& X_, PCA_Method m_)`.
`batchPCA` is only declared in the header, so its body is a parameter here: it maps the
object state and the input matrix to the new state or to an exception. -/
def construct {S : Type} (batchPCA : PCAtools S → Mat S → Except JafarException (PCAtools S))
    (flag : Bool) (X_ : Mat S) (m_ : PCA_Method) : Except JafarException (PCAtools S) :=
  match m_ with
  | .batch => batchPCA (uninitialised flag) X_
  | _ => JFR_RUN_TIME "jmath::PCA: forbidden case in constructor"

/-- The same constructor called with the method left out: `m_` defaults to `batch`. -/
def constructDefault {S : Type}
    (batchPCA : PCAtools S → Mat S → Except JafarException (PCAtools S))
    (flag : Bool) (X_ : Mat S) : Except JafarException (PCAtools S) :=
  construct batchPCA flag X_ .batch

/-- Mean accessor `getMean`. The source returns a reference to the member; the embedding
returns its value. -/
def getMean {S : Type} (p : PCAtools S) : Except JafarException (Vec S) := do
  JFR_PRECOND p.pca_performed "PCA::getMean: no results available"
  return p.mean

/-- Eigenvectors accessor `getEigenVectors`. -/
def getEigenVectors {S : Type} (p : PCAtools S) : Except JafarException (Mat S) := do
  JFR_PRECOND p.pca_performed "PCA::getEigenVectors: no results available"
  return p.eigenvectors

/-- Eigenvalues accessor `getEigenValues`. -/
def getEigenValues {S : Type} (p : PCAtools S) : Except JafarException (Vec S) := do
  JFR_PRECOND p.pca_performed "PCA::getEigenValues: no results available"
  return p.eigenvalues

end PCAtools

/-- An `Except` result is a returned value (not a raised exception). -/
def succeeds {ε α : Type} (r : Except ε α) : Bool :=
  match r with
  | .ok _ => true
  | .error _ => false

/-- An `Except` result is a failed precondition. -/
def failsPrecondition {α : Type} (r : Except JafarException α) : Bool :=
  match r with
  | .error (.precondition _) => true
  | _ => false


/-! ## The subspace model of the specification

`SubspaceModel` and its operations follow the written specification (sections 3 and 4):
the header declares `batchPCA`, `incrementPCA`, `project` and the persistence hooks
without bodies, and keeps no sample counter. -/

section Scalars

variable {S : Type} [NatCast S] [Add S] [Sub S] [Mul S] [Div S] [LE S] [LT S]
  [∀ a b : S, Decidable (a ≤ b)] [∀ a b : S, Decidable (a < b)]

/-- The zero vector of dimension `D`. -/
def zeros (D : Nat) : Vec S := List.replicate D ((0 : Nat) : S)

/-- Sum of two vectors. -/
def vadd (a b : Vec S) : Vec S := List.zipWith (fun x y => x + y) a b

/-- Difference of two vectors. -/
def vsub (a b : Vec S) : Vec S := List.zipWith (fun x y => x - y) a b

/-- Product of a scalar and a vector. -/
def smul (k : S) (a : Vec S) : Vec S := a.map (fun x => k * x)

/-- Inner product of two vectors. -/
def dot (a b : Vec S) : S :=
  (List.zipWith (fun x y => x * y) a b).foldl (fun acc x => acc + x) ((0 : Nat) : S)

namespace Mat

/-- The product `Aᵗ · a`: one inner product per column of `A`. -/
def transMulVec (A : Mat S) (a : Vec S) : Vec S := A.colvecs.map (fun e => dot e a)

/-- The product `A · c`: the combination of the columns of `A` with coefficients `c`. -/
def mulVec (A : Mat S) (c : Vec S) : Vec S :=
  (List.zipWith smul c A.colvecs).foldl vadd (zeros A.rows)

/-- The product `A · B`, column by column. -/
def mul (A B : Mat S) : Mat S := ⟨A.rows, B.colvecs.map A.mulVec⟩

/-- The matrix `A` with the column `v` appended. -/
def appendCol (A : Mat S) (v : Vec S) : Mat S := ⟨A.rows, A.colvecs ++ [v]⟩

/-- The matrix `A` without its first `k` columns. -/
def dropCols (k : Nat) (A : Mat S) : Mat S := ⟨A.rows, A.colvecs.drop k⟩

/-- The last `k` columns of `A`. -/
def lastCols (k : Nat) (A : Mat S) : Mat S := A.dropCols (A.cols - k)

/-- The `N × D` matrix whose rows are the given vectors. -/
def ofRows (D : Nat) (rowvecs : List (Vec S)) : Mat S :=
  ⟨rowvecs.length, (List.range D).map (fun j => rowvecs.map (fun r => r.getD j ((0 : Nat) : S)))⟩

end Mat

/-- Modelled from the spec: the error taxonomy of section 7. No error type for the model
operations is declared in the sources. -/
inductive PCAError where
  | NotFitted
  | DimensionMismatch
  | InvalidRank
  | EmptyInput
  | DecompositionFailure
  | CorruptState
deriving DecidableEq, Repr

/-- Modelled from the spec: the linear-algebra backend of section 6, which the core consumes
and never implements. `eig` is the symmetric eigendecomposition (rotation matrix with the
eigenvectors as columns, eigenvalues), `svd` the singular value decomposition (singular
values, right singular vectors as columns), `norm` the Euclidean norm; a decomposition
that does not converge answers `none`. -/
structure Backend (S : Type) where
  eig : Mat S → Option (Mat S × Vec S)
  svd : Mat S → Option (Vec S × Mat S)
  norm : Vec S → S

/-- Modelled from the spec: the two configuration parameters of the incremental update
(section 9), the numerical-zero tolerance of step 6 and the maximum rank of step 10. -/
structure UpdateConfig (S : Type) where
  tol : S
  Kmax : Nat
deriving DecidableEq, Repr

/-- Modelled from the spec: the entity `SubspaceModel` of section 3. The class in `pca.hpp`
has `pca_performed`, `eigenvectors`, `mean` and `eigenvalues` but no sample counter. -/
structure SubspaceModel (S : Type) where
  mean : Vec S
  eigenvectors : Mat S
  eigenvalues : Vec S
  sampleCount : Nat
  fitted : Bool
deriving DecidableEq, Repr

namespace SubspaceModel

/-- Modelled from the spec: the model as created, "created empty (`fitted = false`)". -/
def empty : SubspaceModel S :=
  { mean := [], eigenvectors := Mat.empty, eigenvalues := [], sampleCount := 0, fitted := false }

/-- Current basis rank `K`: the number of eigenvector columns. -/
def rank (m : SubspaceModel S) : Nat := m.eigenvectors.cols

/-- Order on (eigenvalue, eigenvector) pairs: by eigenvalue. -/
def evLE (p q : S × Vec S) : Prop := p.1 ≤ q.1

instance : DecidableRel (evLE : S × Vec S → S × Vec S → Prop) :=
  fun p q => inferInstanceAs (Decidable (p.1 ≤ q.1))

/-- Column-wise average of the rows of `X` (step 1 of the batch fit): the sum of the rows
divided by their number. -/
def columnMean (X : List (Vec S)) : Vec S :=
  match X with
  | [] => []
  | v :: _ => smul (((1 : Nat) : S) / ((X.length : Nat) : S)) (X.foldl vadd (zeros v.length))

/-- Modelled from the spec: the batch fit of section 4.1, whose body (`batchPCA`) is not in
the header. `X` is given by its rows. Steps: mean, centring, decomposition by the backend,
`λ = s² / (N - 1)`, ascending sort of the eigenvalues with their eigenvectors, and the
replacement of the whole state. A single sample gives that sample as the mean and the rank
`K = 0` (section 8), with nothing to decompose. -/
def fit (b : Backend S) (X : List (Vec S)) : Except PCAError (SubspaceModel S) :=
  match X with
  | [] => .error .EmptyInput
  | v :: rest =>
    if (v :: rest).all (fun r => r.length == v.length) then
      match rest with
      | [] =>
        .ok { mean := v, eigenvectors := ⟨v.length, []⟩, eigenvalues := [], sampleCount := 1,
              fitted := true }
      | _ :: _ =>
        let N := (v :: rest).length
        let mean := columnMean (v :: rest)
        let Xc := (v :: rest).map (fun r => vsub r mean)
        match b.svd (Mat.ofRows v.length Xc) with
        | none => .error .DecompositionFailure
        | some (s, V) =>
          let lam := s.map (fun x => x * x / (((N : Nat) : S) - ((1 : Nat) : S)))
          let sorted := (List.zip lam V.colvecs).insertionSort evLE
          .ok { mean := mean
                eigenvectors := ⟨v.length, sorted.map Prod.snd⟩
                eigenvalues := sorted.map Prod.fst
                sampleCount := N
                fitted := true }
    else .error .DimensionMismatch

/-- Modelled from the spec: the rotation-input matrix `R` of step 7 of section 4.2, for `n`
samples already folded, the (possibly extended) eigenvalues `lam` and the (possibly
extended) coefficient vector `coef`: entry `(i, j)` is `n / n' · lam i` on the diagonal plus
`n / n'² · coef i · coef j`; when a column was appended the last entry of `coef` is `ρ`,
which gives the cross terms of the last row and column. -/
def rotationInput (n : Nat) (lam coef : Vec S) : Mat S :=
  let n' : S := ((n : Nat) : S) + ((1 : Nat) : S)
  let K := lam.length
  ⟨K, (List.range K).map (fun j => (List.range K).map (fun i =>
    (if i = j then ((n : Nat) : S) / n' * lam.getD i ((0 : Nat) : S) else ((0 : Nat) : S)) +
      ((n : Nat) : S) / (n' * n') *
        (coef.getD i ((0 : Nat) : S) * coef.getD j ((0 : Nat) : S))))⟩

/-- Modelled from the spec: the incremental update of section 4.2, whose body
(`incrementPCA`) is not in the header. Every new value is computed before the state is
replaced, so a failed call returns the error and no state. -/
def update (b : Backend S) (cfg : UpdateConfig S) (m : SubspaceModel S) (v : Vec S) :
    Except PCAError (SubspaceModel S) :=
  if m.fitted = false then
    .ok { mean := v, eigenvectors := ⟨v.length, []⟩, eigenvalues := [], sampleCount := 1,
          fitted := true }
  else if v.length ≠ m.mean.length then .error .DimensionMismatch
  else
    let n := m.sampleCount
    let n' : S := ((n : Nat) : S) + ((1 : Nat) : S)
    let a := vsub v m.mean
    let c := m.eigenvectors.transMulVec a
    let r := m.eigenvectors.mulVec c
    let g := vsub a r
    let ρ := b.norm g
    let grow : Bool := decide (cfg.tol < ρ)
    let basis :=
      if grow then m.eigenvectors.appendCol (smul (((1 : Nat) : S) / ρ) g) else m.eigenvectors
    let lam := if grow then m.eigenvalues ++ [((0 : Nat) : S)] else m.eigenvalues
    let coef := if grow then c ++ [ρ] else c
    match b.eig (rotationInput n lam coef) with
    | none => .error .DecompositionFailure
    | some (U, ev) =>
      let rotated := basis.mul U
      let excess := rotated.cols - cfg.Kmax
      .ok { mean := vadd m.mean (smul (((1 : Nat) : S) / n') a)
            eigenvectors := rotated.dropCols excess
            eigenvalues := ev.drop excess
            sampleCount := n + 1
            fitted := true }

/-- Modelled from the spec: the projection of section 4.3, whose body is not in the header
(`project(const jblas::vec&, int) const`). The method is `const`, so the call returns the
state it was given next to its result. The checks come in the order of the contract,
fitted then rank, then the dimension of the input (section 7). -/
def project (m : SubspaceModel S) (v : Vec S) (k : Int) :
    SubspaceModel S × Except PCAError (Vec S) :=
  (m,
    if m.fitted = false then .error .NotFitted
    else if k < 1 ∨ (m.rank : Int) < k then .error .InvalidRank
    else if v.length ≠ m.mean.length then .error .DimensionMismatch
    else .ok ((m.eigenvectors.lastCols k.toNat).transMulVec (vsub v m.mean)))

/-- Modelled from the spec: a value of the persistence record of section 6. -/
inductive Value (S : Type) where
  | vec (v : Vec S)
  | mat (A : Mat S)
  | int (n : Nat)
deriving DecidableEq, Repr

/-- Modelled from the spec: the ordered key/value record of sections 4.5 and 6. -/
abbrev Record (S : Type) := List (String × Value S)

/-- Modelled from the spec: `save` of section 4.5 (the body of `saveKeyValueFile` is not in
the header); like every operation it needs a fitted model. -/
def save (m : SubspaceModel S) : Except PCAError (Record S) :=
  if m.fitted = false then .error .NotFitted
  else .ok [("mean", .vec m.mean), ("eigenvectors", .mat m.eigenvectors),
            ("eigenvalues", .vec m.eigenvalues), ("sampleCount", .int m.sampleCount)]

/-- Modelled from the spec: `load` of section 4.5 (the body of `loadKeyValueFile` is not in
the header). The four keys must be present, in any order; the eigenvector column count must
equal the eigenvalue count and the mean dimension the eigenvector row count; any other
record is `CorruptState`. The loaded state replaces the whole model. -/
def load (r : Record S) : Except PCAError (SubspaceModel S) :=
  match r.lookup "mean", r.lookup "eigenvectors", r.lookup "eigenvalues",
      r.lookup "sampleCount" with
  | some (.vec mean), some (.mat E), some (.vec ev), some (.int n) =>
    if E.cols = ev.length ∧ mean.length = E.rows then
      .ok { mean := mean, eigenvectors := E, eigenvalues := ev, sampleCount := n,
            fitted := true }
    else .error .CorruptState
  | _, _, _, _ => .error .CorruptState

/-- Contract of the symmetric eigendecomposition (section 6): whenever it answers, the
eigenvalues are ascending and there is one of them per column of the rotation. -/
def EigContract (b : Backend S) : Prop :=
  ∀ R U ev, b.eig R = some (U, ev) → ev.Sorted (fun x y => x ≤ y) ∧ ev.length = U.cols

/-- States reachable from the empty model by batch fits, incremental updates (truncation
included) and loads of records written by `save` from a reachable state. -/
inductive Reachable (b : Backend S) (cfg : UpdateConfig S) : SubspaceModel S → Prop where
  | empty : Reachable b cfg SubspaceModel.empty
  | fit (m : SubspaceModel S) (X : List (Vec S)) (m' : SubspaceModel S) :
      Reachable b cfg m → SubspaceModel.fit b X = .ok m' → Reachable b cfg m'
  | update (m : SubspaceModel S) (v : Vec S) (m' : SubspaceModel S) :
      Reachable b cfg m → SubspaceModel.update b cfg m v = .ok m' → Reachable b cfg m'
  | load (m saved : SubspaceModel S) (r : Record S) (m' : SubspaceModel S) :
      Reachable b cfg m → Reachable b cfg saved → SubspaceModel.save saved = .ok r →
      SubspaceModel.load r = .ok m' → Reachable b cfg m'

end SubspaceModel
end Scalars

namespace SubspaceModel

/-- The state after folding the sample `(0, 0, 3)` into `exampleFitted` with a maximum
rank of two: the update leaves three eigenvalues `16/15, 36/25, 64/15` and the truncation
drops the lowest with its eigenvector. -/
def exampleTruncated : SubspaceModel ℚ :=
  ⟨[0, 0, 3 / 5], ⟨3, [[0, 0, 1], [1, 0, 0]]⟩, [36 / 25, 64 / 15], 5, true⟩

end SubspaceModel
end Jafar

/-! ## The running-device form of the uploader (`runningdevicewidget.cpp`) -/

namespace Uploader

/-- Qt string `QString`. -/
abbrev QString := String

/-- Qt byte array `QByteArray`, one natural number below 256 per byte. -/
abbrev QByteArray := List Nat

/-- The enumeration `Qt::CaseSensitivity`. -/
inductive CaseSensitivity where
  | CaseInsensitive
  | CaseSensitive
deriving DecidableEq, Repr

namespace QString

/-- `QString::number(n, base)` for an `int`: digits in lower case, no padding. A negative
number is written with a minus sign in base ten and as its 64-bit two's complement in any
other base. -/
def number (n : Int) (base : Nat) : QString :=
  if 0 ≤ n then String.mk (Nat.toDigits base n.toNat)
  else if base = 10 then "-" ++ String.mk (Nat.toDigits base (-n).toNat)
  else String.mk (Nat.toDigits base (2 ^ 64 + n).toNat)

/-- `QString::startsWith(pattern, cs)`. The case-insensitive comparison folds every
character of both strings with Qt's case-folding table, passed in as `foldCase`. -/
def startsWith (foldCase : Char → Char) (s pattern : QString) (cs : CaseSensitivity) : Bool :=
  match cs with
  | .CaseSensitive => pattern.toList.isPrefixOf s.toList
  | .CaseInsensitive => (pattern.toList.map foldCase).isPrefixOf (s.toList.map foldCase)

/-- `QString::indexOf(ch)`: position of the first occurrence, `-1` when there is none. -/
def indexOf (s : QString) (ch : Char) : Int :=
  if ch ∈ s.toList then (s.toList.indexOf ch : Nat) else -1

/-- `QString::left(n)`: the first `n` characters, the whole string when `n` is negative or
not less than the size. -/
def left (s : QString) (n : Int) : QString :=
  if n < 0 ∨ (s.length : Int) ≤ n then s else String.mk (s.toList.take n.toNat)

/-- `QString::insert(position, str)`; a position beyond the end first extends the string
with spaces. -/
def insert (s : QString) (position : Nat) (str : QString) : QString :=
  let padded := s.toList ++ List.replicate (position - s.length) ' '
  String.mk (padded.take position ++ str.toList ++ padded.drop position)

/-- `QString(const QByteArray&)`: the bytes up to the first zero byte, one character each. -/
def ofByteArray (a : QByteArray) : QString :=
  String.mk ((a.takeWhile (fun b => b != 0)).map Char.ofNat)

end QString

/-- `QByteArray::toHex`: two lower-case hexadecimal digits per byte. -/
def QByteArray.toHex (a : QByteArray) : QString :=
  String.mk (a.flatMap (fun b => [Nat.digitChar (b / 16 % 16), Nat.digitChar (b % 16)]))

/-- The fields of `deviceDescriptorStruct` that `populate` reads (the header
`devicedescriptorstruct.h` is not among the sources). -/
structure deviceDescriptorStruct where
  gitTag : QString
  buildDate : QString
  description : QString
deriving DecidableEq, Repr

/-- What `populate` reads from `UAVObjectUtilManager`: `getBoardModel`, `getFirmwareCRC`,
`getBoardCPUSerial` and `getBoardDescription`. -/
structure UAVObjectUtilManager where
  boardModel : Int
  firmwareCRC : Nat
  boardCPUSerial : QByteArray
  boardDescription : QByteArray
deriving DecidableEq, Repr

/-- Functions called by `populate` whose bodies are outside the sources: the translation
lookup `tr`, Qt's case folding, `deviceDescriptorStruct::idToBoardName` and
`UAVObjectUtilManager::descriptionToStructure` (`none` when it returns `false`, the filled
descriptor otherwise). -/
structure Collaborators where
  tr : QString → QString
  foldCase : Char → Char
  idToBoardName : Int → QString
  descriptionToStructure : QByteArray → Option deviceDescriptorStruct

/-- What `populate` leaves on the form `Ui_runningDeviceWidget`: the text of each label, the
resource loaded into the renderer of the device picture (`none` when `load` is not called),
and the pixmap and tool tip of `lblCertified`. -/
structure Ui_runningDeviceWidget where
  lblDeviceID : QString
  lblBoardName : QString
  lblHWRev : QString
  lblCRC : QString
  devicePicture : Option QString
  CPUSerial : QString
  lblFWTag : QString
  lblCertifiedPixmap : QString
  lblCertifiedToolTip : QString
  lblGitCommitTag : QString
  lblFWDate : QString
deriving DecidableEq, Repr

/-- The `switch (id)` of `populate`: the resource handed to `renderer()->load`, if any. -/
def devicePictureResource (id : Int) : Option QString :=
  if id = 0x0101 then some ":/uploader/images/deviceID-0101.svg"
  else if id = 0x0301 then some ":/uploader/images/deviceID-0301.svg"
  else if id = 0x0401 then some ":/uploader/images/deviceID-0401.svg"
  else if id = 0x0201 then some ":/uploader/images/deviceID-0201.svg"
  else none

/-- The method `runningDeviceWidget::populate`. The mask `id & 0x00FF` on a two's
complement `int` is the remainder modulo 256. -/
def populate (c : Collaborators) (utilMngr : UAVObjectUtilManager) : Ui_runningDeviceWidget :=
  let id := utilMngr.boardModel
  let lblDeviceID := "Device ID: " ++ QString.number id 16
  let lblBoardName := c.idToBoardName id
  let lblHWRev := c.tr "HW Revision: " ++ QString.number (id % 256) 16
  let lblCRC := c.tr "Firmware CRC: " ++ QString.number utilMngr.firmwareCRC 10
  let devicePicture := devicePictureResource id
  let serial := utilMngr.boardCPUSerial.toHex
  let description := utilMngr.boardDescription
  match c.descriptionToStructure description with
  | some devDesc =>
    if QString.startsWith c.foldCase devDesc.description "release" .CaseInsensitive then
      { lblDeviceID := lblDeviceID
        lblBoardName := lblBoardName
        lblHWRev := lblHWRev
        lblCRC := lblCRC
        devicePicture := devicePicture
        CPUSerial := serial
        lblFWTag := "Firmware tag: " ++ devDesc.description
        lblCertifiedPixmap := ":uploader/images/application-certificate.svg"
        lblCertifiedToolTip := c.tr "Tagged officially released firmware build"
        lblGitCommitTag := "Git commit tag: " ++ devDesc.gitTag
        lblFWDate := "Firmware date: " ++ (devDesc.buildDate.insert 4 "-").insert 7 "-" }
    else
      { lblDeviceID := lblDeviceID
        lblBoardName := lblBoardName
        lblHWRev := lblHWRev
        lblCRC := lblCRC
        devicePicture := devicePicture
        CPUSerial := serial
        lblFWTag := "Firmware tag: " ++ devDesc.description
        lblCertifiedPixmap := ":uploader/images/warning.svg"
        lblCertifiedToolTip := c.tr "Untagged or custom firmware build"
        lblGitCommitTag := "Git commit tag: " ++ devDesc.gitTag
        lblFWDate := "Firmware date: " ++ (devDesc.buildDate.insert 4 "-").insert 7 "-" }
  | none =>
    { lblDeviceID := lblDeviceID
      lblBoardName := lblBoardName
      lblHWRev := lblHWRev
      lblCRC := lblCRC
      devicePicture := devicePicture
      CPUSerial := serial
      lblFWTag := "Firmware tag: " ++
        (QString.ofByteArray description).left
          ((QString.ofByteArray description).indexOf (Char.ofNat 255))
      lblCertifiedPixmap := ":uploader/images/warning.svg"
      lblCertifiedToolTip := c.tr "Custom Firmware Build"
      lblGitCommitTag := "Git commit tag: Unknown"
      lblFWDate := "Firmware date: Unknown" }

/-- The board description parses into a descriptor whose description starts with
"release", compared without regard to case. -/
def taggedRelease (c : Collaborators) (utilMngr : UAVObjectUtilManager) : Prop :=
  ∃ devDesc, c.descriptionToStructure utilMngr.boardDescription = some devDesc ∧
    QString.startsWith c.foldCase devDesc.description "release" .CaseInsensitive = true

/-- Four-digit hexadecimal form of a board model id. -/
def hex4 (id : Int) : QString :=
  String.mk (List.replicate (4 - (QString.number id 16).length) '0') ++ QString.number id 16

end Uploader

/-! ## Theorems on the subspace model -/

namespace Jafar
namespace SubspaceModel

section Scalars

variable {S : Type}

/-! ### Dimensions -/

/-- The sum of two vectors of one dimension has that dimension. -/
theorem length_vadd [Add S] (a b : Vec S) (h : b.length = a.length) : (vadd a b).length = a.length := by
  simp [vadd, h]

/-- Scaling keeps the dimension. -/
theorem length_smul [Mul S] (k : S) (a : Vec S) : (smul k a).length = a.length := by
  simp [smul]

/-- Summing vectors of one dimension keeps the dimension. -/
theorem length_foldl_vadd [Add S] (X : List (Vec S)) :
    ∀ acc : Vec S, (∀ v ∈ X, v.length = acc.length) →
      (X.foldl vadd acc).length = acc.length := by
  induction X with
  | nil => intro acc _; rfl
  | cons v X ih =>
    intro acc h
    have hv : v.length = acc.length := h v (List.mem_cons_self _ _)
    rw [List.foldl_cons, ih (vadd acc v) (fun w hw => by
      rw [length_vadd acc v hv]; exact h w (List.mem_cons_of_mem _ hw)), length_vadd acc v hv]

/-! ### Shapes kept by the operations -/

/-- Sorting (eigenvalue, eigenvector) pairs leaves the eigenvalues ascending, when the
comparison of the scalars is total and transitive. -/
theorem sorted_fst_insertionSort [LE S] [∀ a b : S, Decidable (a ≤ b)]
    (htot : ∀ a b : S, a ≤ b ∨ b ≤ a)
    (htrans : ∀ a b c : S, a ≤ b → b ≤ c → a ≤ c) (l : List (S × Vec S)) :
    ((l.insertionSort evLE).map Prod.fst).Sorted (fun x y => x ≤ y) := by
  haveI : IsTotal (S × Vec S) evLE := ⟨fun p q => htot p.1 q.1⟩
  haveI : IsTrans (S × Vec S) evLE := ⟨fun p q r h₁ h₂ => htrans p.1 q.1 r.1 h₁ h₂⟩
  have h := List.sorted_insertionSort evLE l
  unfold List.Sorted at h ⊢
  rw [List.pairwise_map]
  exact h

/-- A batch fit leaves ascending eigenvalues, one per eigenvector column. -/
theorem fit_shape [NatCast S] [Add S] [Sub S] [Mul S] [Div S] [LE S]
    [∀ a b : S, Decidable (a ≤ b)]
    (htot : ∀ a b : S, a ≤ b ∨ b ≤ a)
    (htrans : ∀ a b c : S, a ≤ b → b ≤ c → a ≤ c) (b : Backend S) (X : List (Vec S))
    (m : SubspaceModel S) (h : fit b X = .ok m) :
    m.eigenvalues.Sorted (fun x y => x ≤ y) ∧ m.eigenvalues.length = m.eigenvectors.cols := by
  unfold fit at h
  split at h
  · simp at h
  · split at h
    · split at h
      · simp only [Except.ok.injEq] at h
        subst h
        exact ⟨List.sorted_nil, rfl⟩
      · simp only at h
        split at h
        · simp at h
        · simp only [Except.ok.injEq] at h
          subst h
          exact ⟨sorted_fst_insertionSort htot htrans _, by simp [Mat.cols]⟩
    · simp at h

/-- An update with a backend honouring its contract leaves ascending eigenvalues, one per
eigenvector column, truncation included. -/
theorem update_shape [NatCast S] [Add S] [Sub S] [Mul S] [Div S] [LT S]
    [∀ a b : S, Decidable (a < b)] [LE S]
    (b : Backend S) (cfg : UpdateConfig S) (hb : EigContract b)
    (m : SubspaceModel S) (v : Vec S) (m' : SubspaceModel S) (h : update b cfg m v = .ok m') :
    m'.eigenvalues.Sorted (fun x y => x ≤ y) ∧
      m'.eigenvalues.length = m'.eigenvectors.cols := by
  unfold update at h
  split at h
  · simp only [Except.ok.injEq] at h
    subst h
    exact ⟨List.sorted_nil, rfl⟩
  · split at h
    · simp at h
    · simp only at h
      split at h
      · simp at h
      · rename_i U ev heq
        simp only [Except.ok.injEq] at h
        subst h
        obtain ⟨hs, hl⟩ := hb _ _ _ heq
        refine ⟨?_, ?_⟩
        · exact List.Pairwise.sublist (List.drop_sublist _ _) hs
        · simp [Mat.cols, Mat.dropCols, Mat.mul, hl]

/-- A successful load stores the eigenvalues of the record, one per eigenvector column, and
a mean of the eigenvector row dimension. -/
theorem load_shape (r : Record S) (m : SubspaceModel S) (h : load r = .ok m) :
    m.eigenvalues.length = m.eigenvectors.cols ∧ m.mean.length = m.eigenvectors.rows := by
  unfold load at h
  split at h
  · split at h
    · rename_i hv
      simp only [Except.ok.injEq] at h
      subst h
      exact ⟨hv.1.symm, hv.2⟩
    · simp at h
  · simp at h

/-- A batch fit leaves a mean of the eigenvector row dimension. -/
theorem fit_rows [NatCast S] [Add S] [Sub S] [Mul S] [Div S] [LE S]
    [∀ a b : S, Decidable (a ≤ b)]
    (b : Backend S) (X : List (Vec S)) (m : SubspaceModel S)
    (h : fit b X = .ok m) : m.mean.length = m.eigenvectors.rows := by
  unfold fit at h
  split at h
  · simp at h
  · rename_i v rest
    split at h
    · rename_i hall
      split at h
      · simp only [Except.ok.injEq] at h
        subst h
        rfl
      · simp only at h
        split at h
        · simp at h
        · simp only [Except.ok.injEq] at h
          subst h
          rw [List.all_eq_true] at hall
          simp only [columnMean, length_smul]
          rw [length_foldl_vadd _ (zeros v.length) (fun w hw => by
            have := hall w hw
            simp only [beq_iff_eq] at this
            rw [this]; simp [zeros])]
          simp [zeros]
    · simp at h

/-- An update keeps the mean of the eigenvector row dimension. -/
theorem update_rows [NatCast S] [Add S] [Sub S] [Mul S] [Div S] [LT S]
    [∀ a b : S, Decidable (a < b)]
    (b : Backend S) (cfg : UpdateConfig S) (m : SubspaceModel S) (v : Vec S)
    (m' : SubspaceModel S) (hm : m.mean.length = m.eigenvectors.rows)
    (h : update b cfg m v = .ok m') : m'.mean.length = m'.eigenvectors.rows := by
  unfold update at h
  split at h
  · simp only [Except.ok.injEq] at h
    subst h
    rfl
  · split at h
    · simp at h
    · rename_i hv
      simp only [ne_eq, not_not] at hv
      simp only at h
      split at h
      · simp at h
      · simp only [Except.ok.injEq] at h
        subst h
        simp only [vadd, vsub, smul, List.length_zipWith, List.length_map, hv, min_self,
          Mat.dropCols, Mat.mul]
        split <;> simpa [Mat.appendCol] using hm

/-- Every reachable state has a mean of the eigenvector row dimension. -/
theorem reachable_rows [NatCast S] [Add S] [Sub S] [Mul S] [Div S] [LE S] [LT S]
    [∀ a b : S, Decidable (a ≤ b)] [∀ a b : S, Decidable (a < b)]
    (b : Backend S) (cfg : UpdateConfig S) (m : SubspaceModel S)
    (h : Reachable b cfg m) : m.mean.length = m.eigenvectors.rows := by
  induction h with
  | empty => rfl
  | fit m X m' _ hfit _ => exact fit_rows b X m' hfit
  | update m v m' _ hup ih => exact update_rows b cfg m v m' ih hup
  | load m saved r m' _ _ _ hload _ _ => exact (load_shape r m' hload).2

/-- Every reachable state has one eigenvalue per eigenvector column, with a backend that
honours its contract. -/
theorem reachable_length [NatCast S] [Add S] [Sub S] [Mul S] [Div S] [LE S] [LT S]
    [∀ a b : S, Decidable (a ≤ b)] [∀ a b : S, Decidable (a < b)]
    (htot : ∀ a b : S, a ≤ b ∨ b ≤ a)
    (htrans : ∀ a b c : S, a ≤ b → b ≤ c → a ≤ c) (b : Backend S) (cfg : UpdateConfig S)
    (hb : EigContract b) (m : SubspaceModel S) (h : Reachable b cfg m) :
    m.eigenvalues.length = m.eigenvectors.cols := by
  induction h with
  | empty => rfl
  | fit m X m' _ hfit _ => exact (fit_shape htot htrans b X m' hfit).2
  | update m v m' _ hup _ => exact (update_shape b cfg hb m v m' hup).2
  | load m saved r m' _ _ _ hload _ _ => exact (load_shape r m' hload).1

/-! ### Main statements -/

/-- C4. A fitted model whose shapes agree (as many eigenvalues as eigenvector columns, mean
of the eigenvector row dimension) is saved to a record, and loading that record gives the
same model back: same mean, eigenvectors, eigenvalues and sample count. -/
theorem load_save (m : SubspaceModel S) (hf : m.fitted = true)
    (hK : m.eigenvectors.cols = m.eigenvalues.length)
    (hD : m.mean.length = m.eigenvectors.rows) :
    ∃ r, save m = .ok r ∧ load r = .ok m := by
  refine ⟨[("mean", .vec m.mean), ("eigenvectors", .mat m.eigenvectors),
    ("eigenvalues", .vec m.eigenvalues), ("sampleCount", .int m.sampleCount)], ?_, ?_⟩
  · simp [save, hf]
  · cases m with
    | mk mean E ev n f =>
      simp only at hf hK hD
      subst hf
      simp [load, List.lookup, hK, hD]

/-- C7. `project` fails with `InvalidRank` exactly when the model is fitted and `k` lies
outside `[1, K]`, fails with `NotFitted` exactly when the model is empty, whatever `k` is,
and every call, failed or not, leaves the model state as it was. -/
theorem project_errors [NatCast S] [Add S] [Sub S] [Mul S]
    (m : SubspaceModel S) (v : Vec S) (k : Int) :
    ((project m v k).2 = .error .InvalidRank ↔
      (m.fitted = true ∧ ¬ (1 ≤ k ∧ k ≤ (m.rank : Int)))) ∧
    ((project m v k).2 = .error .NotFitted ↔ m.fitted = false) ∧
    (project m v k).1 = m := by
  unfold project
  cases hf : m.fitted
  · simp
  · by_cases hk : k < 1 ∨ (m.rank : Int) < k
    · have : ¬ (1 ≤ k ∧ k ≤ (m.rank : Int)) := by omega
      simp [hk, this]
    · have : (1 ≤ k ∧ k ≤ (m.rank : Int)) := by omega
      by_cases hv : v.length = m.mean.length <;> simp [hk, this, hv]

end Scalars

end SubspaceModel
end Jafar

/-! ### The statements on concrete rational data -/

namespace Jafar
namespace SubspaceModel

/-- C4, witness: the round trip of a fitted model of dimension three with two eigenvectors. -/
theorem load_save_witness :
    ∃ r, save exampleTruncated = .ok r ∧ load r = .ok exampleTruncated :=
  load_save exampleTruncated rfl rfl rfl

end SubspaceModel
end Jafar

/-! ## Theorems on `PCAtools` as declared -/

namespace Jafar

/-- C1. Each read accessor of `PCAtools` succeeds exactly when `pca_performed` is true; a
successful call returns the stored member, and with the flag false the call raises the
precondition failure and returns nothing. -/
theorem PCAtools.accessors_iff_performed {S : Type} (p : PCAtools S) :
    ((succeeds p.getMean = true ↔ p.pca_performed = true) ∧
      (succeeds p.getEigenVectors = true ↔ p.pca_performed = true) ∧
      (succeeds p.getEigenValues = true ↔ p.pca_performed = true)) ∧
    ((∀ x, p.getMean = .ok x ↔ (p.pca_performed = true ∧ x = p.mean)) ∧
      (∀ x, p.getEigenVectors = .ok x ↔ (p.pca_performed = true ∧ x = p.eigenvectors)) ∧
      (∀ x, p.getEigenValues = .ok x ↔ (p.pca_performed = true ∧ x = p.eigenvalues))) ∧
    ((failsPrecondition p.getMean = true ↔ p.pca_performed = false) ∧
      (failsPrecondition p.getEigenVectors = true ↔ p.pca_performed = false) ∧
      (failsPrecondition p.getEigenValues = true ↔ p.pca_performed = false)) := by
  cases p with
  | mk f ev co me el =>
    cases f <;>
      simp [PCAtools.getMean, PCAtools.getEigenVectors, PCAtools.getEigenValues,
        JFR_PRECOND, succeeds, failsPrecondition, bind, Except.bind, pure, Except.pure,
        eq_comm]

/-- C2. The default constructor yields an empty model: the fitted flag is false and each of
the three read accessors fails its precondition on it. -/
theorem PCAtools.new_not_performed {S : Type} :
    (PCAtools.new : PCAtools S).pca_performed = false ∧
    (PCAtools.new : PCAtools S).getMean =
      .error (.precondition "PCA::getMean: no results available") ∧
    (PCAtools.new : PCAtools S).getEigenVectors =
      .error (.precondition "PCA::getEigenVectors: no results available") ∧
    (PCAtools.new : PCAtools S).getEigenValues =
      .error (.precondition "PCA::getEigenValues: no results available") := by
  refine ⟨rfl, rfl, rfl, rfl⟩

/-- C8. The constructor taking a data matrix runs `batchPCA` on it when the method is
`batch`, which is also what the call without a method does; for every other method it
raises the run-time error whatever `batchPCA` would do, so no fit is performed. -/
theorem PCAtools.construct_method {S : Type}
    (batchPCA : PCAtools S → Mat S → Except JafarException (PCAtools S)) (flag : Bool)
    (X_ : Mat S) :
    PCAtools.construct batchPCA flag X_ .batch = batchPCA (PCAtools.uninitialised flag) X_ ∧
    PCAtools.constructDefault batchPCA flag X_ = batchPCA (PCAtools.uninitialised flag) X_ ∧
    (∀ m_ : PCA_Method, m_ ≠ .batch →
      ∀ fit : PCAtools S → Mat S → Except JafarException (PCAtools S),
      PCAtools.construct fit flag X_ m_ =
        .error (.runTime "jmath::PCA: forbidden case in constructor")) := by
  refine ⟨rfl, rfl, ?_⟩
  intro m_ hm fit
  cases m_ with
  | batch => exact absurd rfl hm
  | EM => rfl

end Jafar

/-! ## Theorems on `populate` -/

namespace Uploader

/-- The device picture set by `populate` is the outcome of its `switch`. -/
theorem devicePicture_eq_switch (c : Collaborators) (utilMngr : UAVObjectUtilManager) :
    (populate c utilMngr).devicePicture = devicePictureResource utilMngr.boardModel := by
  cases hd : c.descriptionToStructure utilMngr.boardDescription with
  | none => simp [populate, hd]
  | some d =>
    cases hs : QString.startsWith c.foldCase d.description "release" .CaseInsensitive <;>
      simp [populate, hd, hs]

/-- The hardware-revision label set by `populate`. -/
theorem lblHWRev_eq_lowByte (c : Collaborators) (utilMngr : UAVObjectUtilManager) :
    (populate c utilMngr).lblHWRev =
      c.tr "HW Revision: " ++ QString.number (utilMngr.boardModel % 256) 16 := by
  cases hd : c.descriptionToStructure utilMngr.boardDescription with
  | none => simp [populate, hd]
  | some d =>
    cases hs : QString.startsWith c.foldCase d.description "release" .CaseInsensitive <;>
      simp [populate, hd, hs]

/-- C9. After `populate` the certificate icon with the tool tip "Tagged officially released
firmware build" is shown exactly when the board description parses into a descriptor whose
description starts with "release" without regard to case; in every other case, an
unparsed description included, the warning icon is shown; and the firmware-tag label always
starts with "Firmware tag: ". -/
theorem populate_firmware_tag (c : Collaborators) (utilMngr : UAVObjectUtilManager) :
    (((populate c utilMngr).lblCertifiedPixmap = ":uploader/images/application-certificate.svg" ∧
        (populate c utilMngr).lblCertifiedToolTip =
          c.tr "Tagged officially released firmware build") ↔ taggedRelease c utilMngr) ∧
    ((populate c utilMngr).lblCertifiedPixmap = ":uploader/images/warning.svg" ↔
      ¬ taggedRelease c utilMngr) ∧
    (∃ rest, (populate c utilMngr).lblFWTag = "Firmware tag: " ++ rest) := by
  cases hd : c.descriptionToStructure utilMngr.boardDescription with
  | none => simp [populate, taggedRelease, hd]
  | some d =>
    cases hs : QString.startsWith c.foldCase d.description "release" .CaseInsensitive <;>
      simp [populate, taggedRelease, hd, hs]

/-- C10. For every board model id, `populate` loads a device picture exactly when the id is
`0x0101`, `0x0201`, `0x0301` or `0x0401`, and then the resource is
":/uploader/images/deviceID-XXXX.svg" with `XXXX` the four-digit hexadecimal form of the id;
for any other id nothing is loaded. The hardware-revision label always shows the low byte
of the id, a value from 0 to 255, in hexadecimal. -/
theorem populate_device_picture (c : Collaborators) (utilMngr : UAVObjectUtilManager) :
    (populate c utilMngr).devicePicture =
      (if utilMngr.boardModel = 0x0101 ∨ utilMngr.boardModel = 0x0201 ∨
          utilMngr.boardModel = 0x0301 ∨ utilMngr.boardModel = 0x0401 then
        some (":/uploader/images/deviceID-" ++ hex4 utilMngr.boardModel ++ ".svg")
      else none) ∧
    (populate c utilMngr).lblHWRev =
      c.tr "HW Revision: " ++ String.mk (Nat.toDigits 16 (utilMngr.boardModel % 256).toNat) ∧
    (0 ≤ utilMngr.boardModel % 256 ∧ utilMngr.boardModel % 256 < 256) := by
  have hlow : 0 ≤ utilMngr.boardModel % 256 := Int.emod_nonneg _ (by decide)
  have hhigh : utilMngr.boardModel % 256 < 256 := Int.emod_lt_of_pos _ (by decide)
  refine ⟨?_, ?_, hlow, hhigh⟩
  · rw [devicePicture_eq_switch]
    unfold devicePictureResource
    by_cases h1 : utilMngr.boardModel = 0x0101
    · rw [h1]; decide
    by_cases h3 : utilMngr.boardModel = 0x0301
    · rw [h3]; decide
    by_cases h4 : utilMngr.boardModel = 0x0401
    · rw [h4]; decide
    by_cases h2 : utilMngr.boardModel = 0x0201
    · rw [h2]; decide
    simp [h1, h2, h3, h4]
  · rw [lblHWRev_eq_lowByte]
    simp [QString.number, hlow]

end Uploader
